import Mathlib

/-!
Verification of the analytics recomputation engine of the Manus-Dashboard
backend (workers/tasks.py, models/analytics.py, models/equity.py,
workers/celery_app.py) against its natural-language specification.

Numbers are modelled as rationals.  A float that is NaN / undefined
(zero denominator, insufficient sample) is modelled as the value
`none` of `Option ℚ`; the SQL value actually persisted in a column is
modelled by `DbVal`, which distinguishes SQL NULL from a stored
NaN/Inf sentinel and from an ordinary number.  The square root used by
the volatility/Sharpe computations is an abstract parameter
`sqrt : ℚ → ℚ` (an uninterpreted float operation); none of the
properties proved below depend on its values.
-/

namespace Dashboard

/-- A value stored in a nullable numeric database column: SQL NULL, a
NaN/Inf sentinel that slipped through unguarded, or a plain number. -/
inductive DbVal where
  | null : DbVal
  | nan : DbVal
  | num (q : ℚ) : DbVal
deriving DecidableEq, Repr

/-- Seconds per day; equity snapshot timestamps are seconds, analytics
dates are day numbers. -/
def dayLen : Nat := 86400

/-- Calendar day of a timestamp. -/
def dayOf (t : Nat) : Nat := t / dayLen

/-- Helper for `resampleDailyLast`: carries the current day and the last
value seen for it. -/
def resampleGo (d : Nat) (v : ℚ) : List (Nat × ℚ) → List (Nat × ℚ)
  | [] => [(d, v)]
  | (t, w) :: rest =>
      if dayOf t = d then resampleGo d w rest
      else (d, v) :: resampleGo (dayOf t) w rest

/-- The pandas step `equity_series.resample('D').last().dropna()` on a
time-ascending list of (timestamp, equity) rows: one (day, equity) pair
per day present, keeping the chronologically last snapshot of each day
(same-day rows are adjacent because the input is time-ascending). -/
def resampleDailyLast : List (Nat × ℚ) → List (Nat × ℚ)
  | [] => []
  | (t, v) :: rest => resampleGo (dayOf t) v rest

/-- Helper for `dailyReturns`: carries the previous value. -/
def dailyReturnsGo (prev : ℚ) : List ℚ → List (Option ℚ)
  | [] => []
  | y :: ys =>
      (if prev = 0 then none else some ((y - prev) / prev)) :: dailyReturnsGo y ys

/-- Modelled from the spec: `compute_daily_returns` (core/analytics.py is
not in the sources; only its tests and callers are).  Spec 4.1: index 0
returns 0; index i > 0 returns (v[i] - v[i-1]) / v[i-1]; same length as
the input; a zero previous value yields null at that position, not a
crash. -/
def dailyReturns (v : List ℚ) : List (Option ℚ) :=
  match v with
  | [] => []
  | x :: xs => some 0 :: dailyReturnsGo x xs

/-- Helper for `maxDrawdown`: folds over the series carrying the running
peak and the most negative drawdown seen so far. -/
def mddGo (peak acc : ℚ) : List ℚ → ℚ
  | [] => acc
  | y :: ys =>
      let p := max peak y
      mddGo p (min acc ((y - p) / p)) ys

/-- Modelled from the spec: `compute_max_drawdown` (core/analytics.py is
not in the sources).  Spec 4.1: running peak p, at each point compute
(v[i] - p) / p, result is the minimum such value over the whole series,
or 0 for a monotonically non-decreasing series; a single scalar. -/
def maxDrawdown (v : List ℚ) : ℚ :=
  match v with
  | [] => 0
  | x :: _ => mddGo x 0 v

/-- Per-index drawdown list (v[i] - p_i) / p_i with running peak carried
through, starting from peak `x`; used to state that `maxDrawdown` is the
minimum over all indices. -/
def drawdownsGo (peak : ℚ) : List ℚ → List ℚ
  | [] => []
  | y :: ys =>
      let p := max peak y
      ((y - p) / p) :: drawdownsGo p ys

/-- The list of per-index drawdowns of a series (empty for the empty
series); its minimum is the max drawdown. -/
def drawdowns (v : List ℚ) : List ℚ :=
  match v with
  | [] => []
  | x :: _ => drawdownsGo x v

/-- Arithmetic mean of a list of rationals (0 on the empty list). -/
def mean (xs : List ℚ) : ℚ := xs.sum / xs.length

/-- Sample variance (ddof = 1), matching the pandas convention the spec
fixes for rolling volatility; windows in use have length ≥ 2. -/
def sampleVar (xs : List ℚ) : ℚ :=
  (xs.map (fun x => (x - mean xs) ^ 2)).sum / ((xs.length : ℚ) - 1)

/-- Sample covariance (ddof = 1) of two paired lists. -/
def sampleCov (xs ys : List ℚ) : ℚ :=
  ((xs.zip ys).map (fun p => (p.1 - mean xs) * (p.2 - mean ys))).sum
    / ((xs.length : ℚ) - 1)

/-- The trailing window ending at index i: the `w` most recent
observations up to and including index i (spec 4.1, trailing
inclusive). -/
def winVals (rs : List (Option ℚ)) (i w : Nat) : List (Option ℚ) :=
  (rs.take (i + 1)).drop (i + 1 - w)

/-- Modelled from the spec: `compute_rolling_volatility`
(core/analytics.py is not in the sources).  Spec 4.1: sample standard
deviation (ddof = 1) of the trailing `w` daily returns, null for indices
with fewer than `w` observations; annualized by sqrt 252.  A window
containing a NaN propagates NaN (null). -/
def rollingVolatility (sqrt : ℚ → ℚ) (rs : List (Option ℚ)) (w : Nat)
    (annualize : Bool) : List (Option ℚ) :=
  (List.range rs.length).map (fun i =>
    if i + 1 < w then none
    else
      let win := winVals rs i w
      if none ∈ win then none
      else
        let xs := win.filterMap id
        some (sqrt (sampleVar xs) * (if annualize then sqrt 252 else 1)))

/-- Modelled from the spec: `compute_rolling_sharpe` (core/analytics.py
is not in the sources).  Spec 4.1: over each trailing window,
mean(excess) / stdev(excess) * sqrt 252 with excess = r - rf / 252; null
when the stdev is 0 or history is insufficient.  The stdev is zero
exactly when the sample variance is zero (real square root), so the null
test is on the variance. -/
def rollingSharpe (sqrt : ℚ → ℚ) (rs : List (Option ℚ)) (w : Nat)
    (rf : ℚ) : List (Option ℚ) :=
  let ex := rs.map (Option.map (fun x => x - rf / 252))
  (List.range rs.length).map (fun i =>
    if i + 1 < w then none
    else
      let win := winVals ex i w
      if none ∈ win then none
      else
        let xs := win.filterMap id
        let sv := sampleVar xs
        if sv = 0 then none
        else some (mean xs / sqrt sv * sqrt 252))

/-- Modelled from the spec: `compute_beta_alpha` (core/analytics.py is
not in the sources).  Spec 4.1: over each trailing window of `w` paired
observations of the pre-aligned series, beta = cov / var(benchmark),
alpha = (mean(portfolio) - beta * mean(benchmark)) * 252; null when
var(benchmark) is 0 or history is insufficient. -/
def rollingBetaAlpha (p b : List ℚ) (w : Nat) :
    List (Option ℚ) × List (Option ℚ) :=
  let betaAt := fun i =>
    if i + 1 < w then none
    else
      let pw := (p.take (i + 1)).drop (i + 1 - w)
      let bw := (b.take (i + 1)).drop (i + 1 - w)
      let vb := sampleVar bw
      if vb = 0 then none else some (sampleCov pw bw / vb)
  let alphaAt := fun i =>
    match betaAt i with
    | none => none
    | some β =>
        let pw := (p.take (i + 1)).drop (i + 1 - w)
        let bw := (b.take (i + 1)).drop (i + 1 - w)
        some ((mean pw - β * mean bw) * 252)
  ((List.range p.length).map betaAt, (List.range p.length).map alphaAt)

/-- Helper for `benchmarkReturns`: carries the previous close. -/
def benchmarkReturnsGo (prev : ℚ) : List (Nat × ℚ) → List (Nat × Option ℚ)
  | [] => []
  | (d, c) :: rest =>
      (d, if prev = 0 then none else some ((c - prev) / prev))
        :: benchmarkReturnsGo c rest

/-- `_get_benchmark_returns` (tasks.py 248-292): daily close-to-close
percentage change of the benchmark bars at or after the start date; the
first return's NaN is filled with 0; a zero previous close yields an Inf
sentinel, modelled as none (it is not filled by fillna, which only
replaces NaN, and the first position is the only NaN). -/
def benchmarkReturns (bars : List (Nat × ℚ)) : List (Nat × Option ℚ) :=
  match bars with
  | [] => []
  | (d, c) :: rest => (d, some 0) :: benchmarkReturnsGo c rest

/-- An analytics row as the orchestrator sees it: the date plus the
eight values the upsert loop of `_recompute_analytics_from_date`
(tasks.py 197-242) writes.  Both the update branch and the insert branch
assign exactly these fields, so at this level of abstraction they
produce the same record; the mismatch between these attribute names and
the columns declared on the AnalyticsDaily model is treated separately
by the ORM column model below. -/
structure AnalyticsRecord where
  date : Nat
  total_equity : DbVal
  daily_return : DbVal
  cumulative_return : DbVal
  max_drawdown : DbVal
  volatility_20d : DbVal
  sharpe_60d : DbVal
  beta_spy_60d : DbVal
  alpha_spy_60d : DbVal
deriving DecidableEq, Repr

/-- The NaN/None guard applied by the pass to a metric value before
storing it: `float(x) if x is not None and not pd.isna(x) else None`
(tasks.py 222, 225-228).  A missing or NaN value becomes SQL NULL. -/
def storedGuard (v : Option ℚ) : DbVal :=
  match v with
  | some q => DbVal.num q
  | none => DbVal.null

/-- The persisted analytics table, keyed by (unique) date. -/
abbrev AStore := Nat → Option AnalyticsRecord

/-- Upsert one record by date: the existing-record check (tasks.py
215-217) followed by the update branch (overwrite of every field the
pass writes) or the insert branch; both leave `some r` at `r.date`. -/
def upsertRecord (s : AStore) (r : AnalyticsRecord) : AStore :=
  fun d => if d = r.date then some r else s d

/-- Apply the per-date upserts of one pass in order. -/
def applyUpserts (s : AStore) (rs : List AnalyticsRecord) : AStore :=
  rs.foldl upsertRecord s

/-- The equity query of the pass (tasks.py 145-149): rows with
time >= datetime.combine(start_date, midnight), i.e. timestamps at or
after startDate * dayLen; the input list is time-ascending (the query
orders by time). -/
def queryEquity (startDate : Nat) (equity : List (Nat × ℚ)) : List (Nat × ℚ) :=
  equity.filter (fun r => dayLen * startDate ≤ r.1)

/-- Inner join of the portfolio daily-return series and the benchmark
return series on date, dropping pairs where either value is NaN: the
pandas `DataFrame({portfolio, benchmark}).dropna()` step of tasks.py
179-182. -/
def alignReturns (port bench : List (Nat × Option ℚ)) :
    List (Nat × ℚ × ℚ) :=
  port.filterMap (fun pr =>
    match pr.2, (bench.find? (fun br => br.1 = pr.1)).map Prod.snd with
    | some pv, some (some bv) => some (pr.1, pv, bv)
    | _, _ => none)

/-- The list of analytics records one recomputation pass computes and
upserts: `_recompute_analytics_from_date` (tasks.py 136-245) without the
session plumbing.  Early returns (no equity rows, fewer than 2 daily
points) produce no records.  `spyBars` are the SPY OHLC closes (empty
when the instrument or its data is absent, in which case the benchmark
returns are None and beta/alpha are None for every date).  Note the
source indexes the beta/alpha series, which are indexed by the aligned
dates, positionally by the daily-series index (tasks.py 211-212); the
model mirrors that. -/
def passRecords (sqrt : ℚ → ℚ) (startDate : Nat)
    (equity spyBars : List (Nat × ℚ)) : List AnalyticsRecord :=
  let rows := queryEquity startDate equity
  if rows.isEmpty then []
  else
    let daily := resampleDailyLast rows
    if daily.length < 2 then []
    else
      let values := daily.map Prod.snd
      let rets := dailyReturns values
      let maxDD := maxDrawdown values
      let vol := rollingVolatility sqrt rets 20 true
      let shp := rollingSharpe sqrt rets 60 0
      let spyRet := benchmarkReturns (spyBars.filter (fun b => startDate ≤ b.1))
      let port := (daily.map Prod.fst).zip rets
      let ba :=
        if 60 ≤ spyRet.length then
          let aligned := alignReturns port spyRet
          if 60 ≤ aligned.length then
            rollingBetaAlpha (aligned.map (fun a => a.2.1))
              (aligned.map (fun a => a.2.2)) 60
          else (List.replicate rets.length none, List.replicate rets.length none)
        else (List.replicate rets.length none, List.replicate rets.length none)
      let v0 := match daily with
        | [] => 0
        | (_, q) :: _ => q
      daily.enum.filterMap (fun p =>
        if p.2.1 < startDate then none
        else some {
          date := p.2.1
          total_equity := DbVal.num p.2.2
          daily_return := storedGuard ((rets.get? p.1).bind id)
          cumulative_return :=
            if v0 = 0 then DbVal.nan else DbVal.num (p.2.2 / v0 - 1)
          max_drawdown := DbVal.num maxDD
          volatility_20d := storedGuard ((vol.get? p.1).bind id)
          sharpe_60d := storedGuard ((shp.get? p.1).bind id)
          beta_spy_60d := storedGuard ((ba.1.get? p.1).bind id)
          alpha_spy_60d := storedGuard ((ba.2.get? p.1).bind id) })

/-- One recomputation pass against the persisted store: compute the
records and upsert them (the single commit at tasks.py 244 makes the
batch visible). -/
def recomputeFrom (sqrt : ℚ → ℚ) (startDate : Nat)
    (equity spyBars : List (Nat × ℚ)) (store : AStore) : AStore :=
  applyUpserts store (passRecords sqrt startDate equity spyBars)

/-- A database-session operation performed by the engine: staging one
per-date upsert, committing, rolling back, or scheduling a task retry
(the last two are issued only by the task wrappers, never by the pass
itself). -/
inductive SessionOp where
  | upsertOp (r : AnalyticsRecord) : SessionOp
  | commitOp : SessionOp
  | rollbackOp : SessionOp
  | retryOp : SessionOp
deriving DecidableEq, Repr

/-- Whether a pass reaches the final commit (tasks.py 244) rather than
taking one of the two early returns (no equity rows, tasks.py 151-153;
fewer than 2 daily points, tasks.py 164-166). -/
def passCommits (startDate : Nat) (equity : List (Nat × ℚ)) : Bool :=
  let rows := queryEquity startDate equity
  if rows.isEmpty then false
  else decide (2 ≤ (resampleDailyLast rows).length)

/-- The session operations one pass performs, in order: all the per-date
upserts of the loop (tasks.py 198-242), then the single commit
(tasks.py 244); nothing at all on an early return.  The pass contains
no rollback and no retry: those belong to its callers. -/
def passOps (sqrt : ℚ → ℚ) (startDate : Nat)
    (equity spyBars : List (Nat × ℚ)) : List SessionOp :=
  if passCommits startDate equity then
    (passRecords sqrt startDate equity spyBars).map SessionOp.upsertOp
      ++ [SessionOp.commitOp]
  else []

/-- A database session: the durable store plus the uncommitted pending
writes of the open transaction. -/
structure Session where
  persisted : AStore
  pending : List AnalyticsRecord

/-- Transactional semantics of one session operation: an upsert only
stages; a commit makes all pending writes durable atomically; a
rollback discards pending writes; a retry does not touch the session. -/
def execOp (s : Session) : SessionOp → Session
  | SessionOp.upsertOp r => ⟨s.persisted, s.pending ++ [r]⟩
  | SessionOp.commitOp => ⟨applyUpserts s.persisted s.pending, []⟩
  | SessionOp.rollbackOp => ⟨s.persisted, []⟩
  | SessionOp.retryOp => s

/-- Run a list of session operations. -/
def execOps (s : Session) (ops : List SessionOp) : Session :=
  ops.foldl execOp s

/-- The durable store after the pass raises at step `k` (the first `k`
operations ran) and the caller rolls the session back (tasks.py 60, 97,
131). -/
def persistedAfterFailure (store : AStore) (ops : List SessionOp)
    (k : Nat) : AStore :=
  (execOp (execOps ⟨store, []⟩ (ops.take k)) SessionOp.rollbackOp).persisted

/-- The columns declared on the AnalyticsDaily model
(models/analytics.py 24-70). -/
def analyticsDailyColumns : List String :=
  ["id", "date", "return_pct", "cum_return", "drawdown",
   "volatility_20d", "sharpe_60d", "beta_spy_60d", "alpha_spy_60d"]

/-- The attribute names the update branch of the pass assigns
(tasks.py 221-228). -/
def upsertWriteAttrs : List String :=
  ["total_equity", "daily_return", "cumulative_return", "max_drawdown",
   "volatility_20d", "sharpe_60d", "beta_spy_60d", "alpha_spy_60d"]

/-- The keyword arguments the insert branch passes to the AnalyticsDaily
constructor (tasks.py 231-241). -/
def insertKwargs : List String := "date" :: upsertWriteAttrs

/-- The SQLAlchemy declarative constructor: accepts only keyword
arguments naming mapped attributes and raises TypeError (here: the name
of the first offending argument) otherwise. -/
def analyticsDailyInit (kwargs : List String) : Except String (List String) :=
  match kwargs.find? (fun k => ¬ analyticsDailyColumns.contains k) with
  | some k => Except.error k
  | none => Except.ok kwargs

/-- Set a key in an association list, preserving order of existing
keys. -/
def assocSet (l : List (String × DbVal)) (k : String) (v : DbVal) :
    List (String × DbVal) :=
  match l with
  | [] => [(k, v)]
  | kv :: rest => if kv.1 = k then (k, v) :: rest else kv :: assocSet rest k v

/-- An ORM instance of AnalyticsDaily: the mapped column values, which
the unit of work persists at commit, and plain instance attributes,
which it does not. -/
structure OrmRow where
  mapped : List (String × DbVal)
  extra : List (String × DbVal)
deriving DecidableEq, Repr

/-- Python setattr on an ORM instance: assigning a mapped attribute
updates the column; assigning any other name creates an ordinary
instance attribute that is never persisted. -/
def setattrRow (row : OrmRow) (k : String) (v : DbVal) : OrmRow :=
  if analyticsDailyColumns.contains k then
    ⟨assocSet row.mapped k v, row.extra⟩
  else
    ⟨row.mapped, assocSet row.extra k v⟩

/-- The update branch of the pass (tasks.py 221-228) applied to an
existing row: assign, in order, each attribute in `upsertWriteAttrs`
paired with its newly computed value. -/
def updateBranch (row : OrmRow) (vals : List (String × DbVal)) : OrmRow :=
  vals.foldl (fun r kv => setattrRow r kv.1 kv.2) row

/-- The Celery retry cap of the event task:
celery_app.task(bind=True, max_retries=3) (tasks.py 30). -/
def maxRetries : Nat := 3

/-- Observable outcome of processing one webhook event through
`recompute_from_event`, across all its attempts. -/
structure RetryTrace where
  attempts : Nat
  delays : List Nat
  committed : Bool
  errorsLogged : Nat
deriving DecidableEq, Repr

/-- `recompute_from_event` (tasks.py 30-64) from retry count `r`:
if the body succeeds the task commits; on an exception it logs the
error, rolls back, and raises self.retry with countdown 2 ^ r
(tasks.py 58-62), which re-runs the task while r < maxRetries and
raises MaxRetriesExceededError (a permanently failed, logged task)
once the retries are exhausted.  `outcomes n` tells whether the body
succeeds on the attempt with retry count n; the fuel argument only
bounds the recursion and is chosen large enough to never run out. -/
def runEventTask (outcomes : Nat → Bool) : Nat → Nat → RetryTrace
  | 0, _ => ⟨0, [], false, 0⟩
  | fuel + 1, r =>
      if outcomes r then ⟨1, [], true, 0⟩
      else if r < maxRetries then
        let rest := runEventTask outcomes fuel (r + 1)
        ⟨rest.attempts + 1, 2 ^ r :: rest.delays, rest.committed,
          rest.errorsLogged + 1⟩
      else ⟨1, [], false, 1⟩

/-- Process one webhook event: first attempt starts with retry count
0. -/
def processEvent (outcomes : Nat → Bool) : RetryTrace :=
  runEventTask outcomes (maxRetries + 1) 0

/-- Events are independent tasks: a stream of events is processed by
running each one on its own, regardless of the others' outcomes. -/
def processEvents (evs : List (Nat → Bool)) : List RetryTrace :=
  evs.map processEvent

/-- Observable outcome of one invocation of a time-triggered task. -/
structure TaskRun where
  raised : Bool
  rolledBack : Bool
  retriesScheduled : Nat
deriving DecidableEq, Repr

/-- `recompute_all_analytics` (tasks.py 102-133): the body runs inside
try/except Exception; a failure is logged and rolled back and the task
returns normally; no retry is ever scheduled. -/
def recompute_all_analytics (body : Except String Unit) : TaskRun :=
  match body with
  | Except.ok _ => ⟨false, false, 0⟩
  | Except.error _ => ⟨false, true, 0⟩

/-- `update_benchmarks_daily` (tasks.py 67-99): same try/except
Exception shape as `recompute_all_analytics`; failures are logged and
rolled back, never re-raised, never retried. -/
def update_benchmarks_daily (body : Except String Unit) : TaskRun :=
  match body with
  | Except.ok _ => ⟨false, false, 0⟩
  | Except.error _ => ⟨false, true, 0⟩

/-- The beat schedule (celery_app.py 34-45): two plain cron entries,
with no retry configuration attached to either. -/
def beatSchedule : List (String × String) :=
  [("update-benchmarks-daily", "workers.tasks.update_benchmarks_daily"),
   ("recompute-all-analytics", "workers.tasks.recompute_all_analytics")]


/-- Three consecutive daily equity snapshots: 100, 110, 121. -/
def eqC1 : List (Nat × ℚ) := [(0, 100), (86400, 110), (172800, 121)]

/-- An analytics table with no rows. -/
def storeEmpty : AStore := fun _ => none

/-- The record the pass computes for day 1 when recomputing eqC1 from
day 1 with no benchmark data. -/
def recDay1 : AnalyticsRecord :=
  ⟨1, DbVal.num 110, DbVal.num 0, DbVal.num 0, DbVal.num 0, DbVal.null,
    DbVal.null, DbVal.null, DbVal.null⟩

/-- Reading the store after a batch of upserts folds over the records,
keeping the last record written for the date being read. -/
theorem applyUpserts_apply (s : AStore) (l : List AnalyticsRecord) (d : Nat) :
    applyUpserts s l d
      = l.foldl (fun o r => if d = r.date then some r else o) (s d) := by
  induction l generalizing s with
  | nil => rfl
  | cons r rs ih =>
      simp only [applyUpserts, List.foldl_cons] at *
      exact ih (upsertRecord s r)

theorem foldl_last_of_not_mem (d : Nat) (l : List AnalyticsRecord)
    (h : ∀ r ∈ l, r.date ≠ d) (a : Option AnalyticsRecord) :
    l.foldl (fun o r => if d = r.date then some r else o) a = a := by
  induction l generalizing a with
  | nil => rfl
  | cons r rs ih =>
      simp only [List.foldl_cons]
      have hne : ¬ d = r.date := fun hd => h r (List.mem_cons_self r rs) hd.symm
      rw [if_neg hne]
      exact ih (fun r' hr' => h r' (List.mem_cons_of_mem r hr')) a

theorem foldl_last_of_mem (d : Nat) (l : List AnalyticsRecord)
    (h : ∃ r ∈ l, r.date = d) (a b : Option AnalyticsRecord) :
    l.foldl (fun o r => if d = r.date then some r else o) a
      = l.foldl (fun o r => if d = r.date then some r else o) b := by
  induction l generalizing a b with
  | nil => simp at h
  | cons r rs ih =>
      simp only [List.foldl_cons]
      by_cases hd : d = r.date
      · rw [if_pos hd, if_pos hd]
      · rw [if_neg hd, if_neg hd]
        rcases h with ⟨r', hr', hd'⟩
        rcases List.mem_cons.mp hr' with h1 | h2
        · exact absurd (h1 ▸ hd').symm hd
        · exact ih ⟨r', h2, hd'⟩ _ _

/-- Upserting the same batch twice is the same as upserting it once. -/
theorem applyUpserts_idem (s : AStore) (l : List AnalyticsRecord) :
    applyUpserts (applyUpserts s l) l = applyUpserts s l := by
  funext d
  rw [applyUpserts_apply, applyUpserts_apply]
  by_cases h : ∃ r ∈ l, r.date = d
  · exact foldl_last_of_mem d l h _ _
  · push_neg at h
    rw [foldl_last_of_not_mem d l h, foldl_last_of_not_mem d l h]

/-- C3: running RecomputeFrom(d) twice with unchanged equity and
benchmark data leaves the analytics store exactly as after the first
run (hence in particular the rows for all dates at or after d are
identical). -/
theorem c3_recompute_from_idempotent (sqrt : ℚ → ℚ) (startDate : Nat)
    (equity spyBars : List (Nat × ℚ)) (store : AStore) :
    recomputeFrom sqrt startDate equity spyBars
        (recomputeFrom sqrt startDate equity spyBars store)
      = recomputeFrom sqrt startDate equity spyBars store := by
  unfold recomputeFrom
  exact applyUpserts_idem store (passRecords sqrt startDate equity spyBars)


theorem execOps_map_upsert (p : AStore) (pen : List AnalyticsRecord)
    (rs : List AnalyticsRecord) :
    execOps ⟨p, pen⟩ (rs.map SessionOp.upsertOp) = ⟨p, pen ++ rs⟩ := by
  induction rs generalizing pen with
  | nil => simp [execOps]
  | cons r t ih =>
      simp only [List.map_cons, execOps, List.foldl_cons]
      have := ih (pen ++ [r])
      simp only [execOps] at this
      rw [show execOp ⟨p, pen⟩ (SessionOp.upsertOp r) = ⟨p, pen ++ [r]⟩ from rfl]
      rw [this, List.append_assoc]
      rfl

theorem passRecords_eq_nil (sqrt : ℚ → ℚ) (startDate : Nat)
    (equity spyBars : List (Nat × ℚ))
    (h : passCommits startDate equity = false) :
    passRecords sqrt startDate equity spyBars = [] := by
  simp only [passCommits] at h
  simp only [passRecords]
  by_cases he : (queryEquity startDate equity).isEmpty
  · rw [if_pos he]
  · rw [if_neg he]
    rw [if_neg he] at h
    simp only [decide_eq_false_iff_not, not_le] at h
    rw [if_pos h]

/-- C4: a recomputation pass stages all of its per-date upserts and
performs exactly one commit, at the very end; a failure at any step
before the end, followed by the caller's rollback, leaves the persisted
store exactly as it was, a completed run persists exactly the batch of
the pass, and the pass performs no retry operation. -/
theorem c4_atomic_batch (sqrt : ℚ → ℚ) (startDate : Nat)
    (equity spyBars : List (Nat × ℚ)) (store : AStore) (k : Nat) :
    (k < (passOps sqrt startDate equity spyBars).length →
      persistedAfterFailure store (passOps sqrt startDate equity spyBars) k
        = store)
    ∧ (execOps ⟨store, []⟩ (passOps sqrt startDate equity spyBars)).persisted
        = recomputeFrom sqrt startDate equity spyBars store
    ∧ (passOps sqrt startDate equity spyBars).count SessionOp.retryOp = 0
    ∧ (passOps sqrt startDate equity spyBars).count SessionOp.commitOp ≤ 1 := by
  by_cases hc : passCommits startDate equity
  · simp only [passOps, if_pos hc]
    set rs := passRecords sqrt startDate equity spyBars with hrs
    refine ⟨?_, ?_, ?_, ?_⟩
    · intro hk
      simp only [List.length_append, List.length_map, List.length_cons,
        List.length_nil] at hk
      have hk' : k ≤ (rs.map SessionOp.upsertOp).length := by
        simp only [List.length_map]; omega
      unfold persistedAfterFailure
      rw [List.take_append_of_le_length hk']
      rw [← List.map_take]
      rw [execOps_map_upsert]
      rfl
    · rw [execOps, List.foldl_append]
      rw [show List.foldl execOp ⟨store, []⟩ (rs.map SessionOp.upsertOp)
            = execOps ⟨store, []⟩ (rs.map SessionOp.upsertOp) from rfl]
      rw [execOps_map_upsert]
      simp only [List.nil_append, List.foldl_cons, List.foldl_nil]
      rfl
    · rw [List.count_append]
      have h1 : (rs.map SessionOp.upsertOp).count SessionOp.retryOp = 0 := by
        rw [List.count_eq_zero]
        intro hmem
        rcases List.mem_map.mp hmem with ⟨r, _, habs⟩
        exact SessionOp.noConfusion habs
      rw [h1]
      rfl
    · rw [List.count_append]
      have h1 : (rs.map SessionOp.upsertOp).count SessionOp.commitOp = 0 := by
        rw [List.count_eq_zero]
        intro hmem
        rcases List.mem_map.mp hmem with ⟨r, _, habs⟩
        exact SessionOp.noConfusion habs
      rw [h1]
      simp
  · have hc' : passCommits startDate equity = false := by
      simpa using hc
    simp only [passOps, if_neg hc]
    refine ⟨?_, ?_, ?_, ?_⟩
    · intro hk
      simp at hk
    · unfold recomputeFrom
      rw [passRecords_eq_nil sqrt startDate equity spyBars hc']
      rfl
    · rfl
    · simp


theorem mddGo_of_chain (l : List ℚ) : ∀ peak acc : ℚ,
    List.Chain' (· ≤ ·) (peak :: l) → acc ≤ 0 → mddGo peak acc l = acc := by
  induction l with
  | nil => intro peak acc _ _; rfl
  | cons y ys ih =>
      intro peak acc hch hacc
      have hpy : peak ≤ y := (List.chain'_cons.mp hch).1
      have htl : List.Chain' (· ≤ ·) (y :: ys) := (List.chain'_cons.mp hch).2
      simp only [mddGo]
      rw [max_eq_right hpy, sub_self, zero_div, min_eq_left hacc]
      exact ih y acc htl hacc

theorem maxDrawdown_of_chain (l : List ℚ)
    (h : List.Chain' (· ≤ ·) l) : maxDrawdown l = 0 := by
  cases l with
  | nil => rfl
  | cons x xs =>
      simp only [maxDrawdown, mddGo]
      rw [max_self, sub_self, zero_div, min_self]
      exact mddGo_of_chain xs x 0 h le_rfl

theorem mddGo_eq_foldl (l : List ℚ) : ∀ peak acc : ℚ,
    mddGo peak acc l = (drawdownsGo peak l).foldl min acc := by
  induction l with
  | nil => intro peak acc; rfl
  | cons y ys ih =>
      intro peak acc
      simp only [mddGo, drawdownsGo, List.foldl_cons]
      exact ih (max peak y) _

theorem maxDrawdown_eq_min_drawdowns (v : List ℚ) :
    maxDrawdown v = (drawdowns v).foldl min 0 := by
  cases v with
  | nil => rfl
  | cons x xs =>
      simp only [maxDrawdown, drawdowns]
      exact mddGo_eq_foldl (x :: xs) x 0

/-- C6: max drawdown is the minimum over all indices of the running-peak
drawdowns (v i - p i) / p i; it is 0 on every monotonically
non-decreasing series; on [100,110,105,95,100,120] it is -3/22, which is
the peak-110-to-trough-95 decline, approximately -0.1364; and the first
per-index drawdown is always 0, so folding the minimum from 0 is the
minimum over all indices.  It is a scalar, not a windowed series. -/
theorem c6_max_drawdown (l : List ℚ) (hl : List.Chain' (· ≤ ·) l) :
    maxDrawdown l = 0
    ∧ maxDrawdown [100, 110, 105, 95, 100, 120] = -3/22
    ∧ |maxDrawdown [100, 110, 105, 95, 100, 120] + 1364/10000| < 1/1000
    ∧ (∀ v : List ℚ, maxDrawdown v = (drawdowns v).foldl min 0)
    ∧ (∀ (x : ℚ) (xs : List ℚ), (drawdowns (x :: xs)).head? = some 0) := by
  refine ⟨maxDrawdown_of_chain l hl, ?_, ?_, maxDrawdown_eq_min_drawdowns, ?_⟩
  · norm_num [maxDrawdown, mddGo]
  · rw [show maxDrawdown [100, 110, 105, 95, 100, 120] = -3/22 by
      norm_num [maxDrawdown, mddGo]]
    rw [abs_lt]
    constructor <;> norm_num
  · intro x xs
    simp [drawdowns, drawdownsGo]

/-- Witness for C6 at a concrete monotone series. -/
theorem c6_max_drawdown_witness :
    List.Chain' (· ≤ ·) ([100, 105, 110] : List ℚ)
    ∧ maxDrawdown [100, 105, 110] = 0 := by
  have hch : List.Chain' (· ≤ ·) ([100, 105, 110] : List ℚ) := by
    simp only [List.chain'_cons, List.chain'_singleton, and_true]
    norm_num
  exact ⟨hch, (c6_max_drawdown [100, 105, 110] hch).1⟩


theorem winVals_map_some (rets : List ℚ) (i w : Nat) :
    winVals (rets.map some) i w
      = ((rets.take (i + 1)).drop (i + 1 - w)).map some := by
  simp [winVals, List.map_take, List.map_drop]

theorem none_not_mem_map_some (l : List ℚ) :
    none ∉ l.map (some : ℚ → Option ℚ) := by
  simp

/-- C7: on a NaN-free return series, rollingVolatility and rollingSharpe
return a series of the same length as the input, null at every index
i with i + 1 < w, and non-null at every index with w ≤ i + 1 given
non-degenerate data (unconditionally for volatility; for Sharpe whenever
the sample variance of the window of excess returns is nonzero).  The
window at index i is the trailing inclusive slice of the w most recent
observations. -/
theorem c7_rolling_window_nulls (sqrt : ℚ → ℚ) (rets : List ℚ) (w : Nat)
    (ann : Bool) (rf : ℚ) :
    (rollingVolatility sqrt (rets.map some) w ann).length = rets.length
    ∧ (rollingSharpe sqrt (rets.map some) w rf).length = rets.length
    ∧ (∀ i, i < rets.length → i + 1 < w →
        (rollingVolatility sqrt (rets.map some) w ann).get? i = some none
        ∧ (rollingSharpe sqrt (rets.map some) w rf).get? i = some none)
    ∧ (∀ i, i < rets.length → w ≤ i + 1 →
        ∃ q, (rollingVolatility sqrt (rets.map some) w ann).get? i
          = some (some q))
    ∧ (∀ i, i < rets.length → w ≤ i + 1 →
        sampleVar (((rets.map (fun x => x - rf / 252)).take (i + 1)).drop
            (i + 1 - w)) ≠ 0 →
        ∃ q, (rollingSharpe sqrt (rets.map some) w rf).get? i
          = some (some q)) := by
  have hex : (rets.map (some : ℚ → Option ℚ)).map
        (Option.map (fun x => x - rf / 252))
      = (rets.map (fun x => x - rf / 252)).map some := by
    simp [List.map_map]
  refine ⟨?_, ?_, ?_, ?_, ?_⟩
  · simp [rollingVolatility]
  · simp [rollingSharpe]
  · intro i hi hw
    have hr : (List.range (rets.map (some : ℚ → Option ℚ)).length).get? i
        = some i := by
      rw [List.length_map]; exact List.get?_range hi
    constructor
    · simp only [rollingVolatility, List.get?_map, hr, Option.map_some']
      rw [if_pos hw]
    · simp only [rollingSharpe, List.get?_map, hr, Option.map_some']
      rw [if_pos hw]
  · intro i hi hw
    have hr : (List.range (rets.map (some : ℚ → Option ℚ)).length).get? i
        = some i := by
      rw [List.length_map]; exact List.get?_range hi
    simp only [rollingVolatility, List.get?_map, hr, Option.map_some']
    rw [if_neg (by omega), winVals_map_some]
    rw [if_neg (none_not_mem_map_some _)]
    exact ⟨_, rfl⟩
  · intro i hi hw hvar
    have hr : (List.range (rets.map (some : ℚ → Option ℚ)).length).get? i
        = some i := by
      rw [List.length_map]; exact List.get?_range hi
    simp only [rollingSharpe, hex, List.get?_map, hr, Option.map_some']
    rw [if_neg (by omega)]
    rw [winVals_map_some]
    rw [if_neg (none_not_mem_map_some _)]
    rw [List.filterMap_map]
    rw [show ((id ∘ some) : ℚ → Option ℚ) = some from rfl]
    rw [List.filterMap_some]
    rw [if_neg hvar]
    exact ⟨_, rfl⟩

/-- Witness for C7 at a concrete series and window. -/
theorem c7_rolling_window_nulls_witness :
    (2 ≤ (1 : Nat) + 1)
    ∧ sampleVar ((([(1 : ℚ), 2].map (fun x => x - 0 / 252)).take 2).drop 0) ≠ 0
    ∧ ∃ q, (rollingSharpe id ([(1 : ℚ), 2].map some) 2 0).get? 1
        = some (some q) := by
  have h1 : (1 : Nat) < ([(1 : ℚ), 2]).length := by norm_num
  have h2 : (2 : Nat) ≤ 1 + 1 := by norm_num
  have h3 : sampleVar ((([(1 : ℚ), 2].map (fun x => x - 0 / 252)).take 2).drop 0) ≠ 0 := by
    norm_num [sampleVar, mean]
  exact ⟨h2, h3, (c7_rolling_window_nulls id [1, 2] 2 true 0).2.2.2.2 1 h1 h2 h3⟩


theorem processEvent_cases (o : Nat → Bool) :
    processEvent o = ⟨1, [], true, 0⟩
    ∨ processEvent o = ⟨2, [1], true, 1⟩
    ∨ processEvent o = ⟨3, [1, 2], true, 2⟩
    ∨ processEvent o = ⟨4, [1, 2, 4], true, 3⟩
    ∨ processEvent o = ⟨4, [1, 2, 4], false, 4⟩ := by
  cases h0 : o 0 <;> cases h1 : o 1 <;> cases h2 : o 2 <;> cases h3 : o 3 <;>
    simp [processEvent, runEventTask, maxRetries, h0, h1, h2, h3]

/-- C8: an event-triggered recomputation with two transient failures
followed by a success performs exactly 3 attempts with two strictly
increasing backoff delays (1 then 2) and commits; in every run there are
at most 3 retries (hence at most 4 attempts), the scheduled delays are
exactly the doubling sequence 2 ^ 0, 2 ^ 1, ..., so they strictly
increase; a run that never commits has logged errors; and events are
processed independently of each other. -/
theorem c8_event_retry (o : Nat → Bool) :
    processEvent (fun n => decide (2 ≤ n)) = ⟨3, [1, 2], true, 2⟩
    ∧ (processEvent o).delays
        = (List.range (processEvent o).delays.length).map (fun i => 2 ^ i)
    ∧ (processEvent o).delays.length ≤ maxRetries
    ∧ (processEvent o).attempts ≤ maxRetries + 1
    ∧ List.Chain' (· < ·) (processEvent o).delays
    ∧ ((processEvent o).committed = false → 1 ≤ (processEvent o).errorsLogged)
    ∧ (∀ evs : List (Nat → Bool), ∀ i : Nat,
        (processEvents evs).get? i = (evs.get? i).map processEvent) := by
  refine ⟨by decide, ?_, ?_, ?_, ?_, ?_, ?_⟩
  · rcases processEvent_cases o with h | h | h | h | h <;> rw [h] <;> decide
  · rcases processEvent_cases o with h | h | h | h | h <;> rw [h] <;> decide
  · rcases processEvent_cases o with h | h | h | h | h <;> rw [h] <;> decide
  · rcases processEvent_cases o with h | h | h | h | h <;> rw [h] <;>
      norm_num [List.chain'_cons]
  · rcases processEvent_cases o with h | h | h | h | h <;> rw [h] <;> decide
  · intro evs i
    simp [processEvents, List.get?_map]

/-- Witness for C8: a run that always fails logs errors. -/
theorem c8_event_retry_witness :
    (processEvent (fun _ => false)).committed = false
    ∧ 1 ≤ (processEvent (fun _ => false)).errorsLogged := by
  have h : (processEvent (fun _ => false)).committed = false := by decide
  exact ⟨h, (c8_event_retry (fun _ => false)).2.2.2.2.2.1 h⟩

/-- C10: the time-triggered tasks recompute_all_analytics and
update_benchmarks_daily catch every exception, roll the session back on
failure, return normally (never re-raise) and schedule no retry; only
the event-triggered path has a retry cap (3), and the beat schedule
holds exactly the two plain cron entries. -/
theorem c10_time_triggered_no_retry (body body2 : Except String Unit) :
    (recompute_all_analytics body).raised = false
    ∧ (recompute_all_analytics body).retriesScheduled = 0
    ∧ (update_benchmarks_daily body2).raised = false
    ∧ (update_benchmarks_daily body2).retriesScheduled = 0
    ∧ (∀ e, body = Except.error e →
        (recompute_all_analytics body).rolledBack = true)
    ∧ (∀ e, body2 = Except.error e →
        (update_benchmarks_daily body2).rolledBack = true)
    ∧ maxRetries = 3
    ∧ (processEvent (fun _ => false)).delays.length = maxRetries
    ∧ beatSchedule.length = 2 := by
  refine ⟨?_, ?_, ?_, ?_, ?_, ?_, rfl, by decide, rfl⟩
  · cases body <;> rfl
  · cases body <;> rfl
  · cases body2 <;> rfl
  · cases body2 <;> rfl
  · intro e he; rw [he]; rfl
  · intro e he; rw [he]; rfl

/-- Witness for C10: a failing nightly task rolls back and does not
raise. -/
theorem c10_time_triggered_no_retry_witness :
    (recompute_all_analytics (Except.error ("db unavailable"))).rolledBack
      = true := by
  exact (c10_time_triggered_no_retry (Except.error ("db unavailable"))
    (Except.ok ())).2.2.2.2.1 ("db unavailable") rfl



/-- C9: the attribute names the pass writes do not coincide with the
columns declared on AnalyticsDaily: the insert branch's keyword
arguments are rejected by the constructor (total_equity is not a mapped
attribute), and the update branch assigns attributes that are not mapped
columns, while the declared metric columns return_pct, cum_return and
drawdown are never assigned. -/
theorem c9_orm_column_mismatch :
    analyticsDailyInit insertKwargs = Except.error ("total_equity")
    ∧ "total_equity" ∈ insertKwargs
    ∧ "total_equity" ∉ analyticsDailyColumns
    ∧ "return_pct" ∈ analyticsDailyColumns
    ∧ "return_pct" ∉ upsertWriteAttrs
    ∧ "cum_return" ∉ upsertWriteAttrs
    ∧ "drawdown" ∉ upsertWriteAttrs
    ∧ (setattrRow ⟨[], []⟩ "total_equity" (DbVal.num 1)).mapped = []
    ∧ (setattrRow ⟨[], []⟩ "total_equity" (DbVal.num 1)).extra
        = [("total_equity", DbVal.num 1)] := by
  refine ⟨rfl, ?_, ?_, ?_, ?_, ?_, ?_, rfl, rfl⟩ <;> decide

/-- C2 (evaluation at the failing input): re-running the pass over a
date whose row already holds return_pct = 5 assigns all eight attribute
names the pass uses with the new value 7, yet the mapped column
return_pct still holds the stale 5, and the insert branch's constructor
call fails outright. -/
theorem c2_update_branch_leaves_stale_columns :
    ((updateBranch
        ⟨[("return_pct", DbVal.num 5), ("cum_return", DbVal.null),
          ("drawdown", DbVal.null)], []⟩
        (upsertWriteAttrs.map (fun a => (a, DbVal.num 7)))).mapped.lookup
      "return_pct") = some (DbVal.num 5)
    ∧ DbVal.num 5 ≠ DbVal.num 7
    ∧ analyticsDailyInit insertKwargs = Except.error ("total_equity") := by
  refine ⟨rfl, ?_, rfl⟩
  simp only [ne_eq, DbVal.num.injEq]
  norm_num

set_option maxHeartbeats 1600000 in
/-- C1 (evaluation at the failing input): with equity 100, 110, 121 on
three consecutive days, RecomputeFrom(day 1) stores cumulative return
121/110 - 1 = 1/10 at day 2 — the baseline is the first value of the
recomputation window — whereas a full recomputation from inception
stores 121/100 - 1 = 21/100 there, and the two differ. -/
theorem c1_cumulative_baseline_is_window_start :
    ((recomputeFrom id 1 eqC1 [] storeEmpty) 2).map
        (fun r => r.cumulative_return) = some (DbVal.num (1/10))
    ∧ ((recomputeFrom id 0 eqC1 [] storeEmpty) 2).map
        (fun r => r.cumulative_return) = some (DbVal.num (21/100))
    ∧ (1/10 : ℚ) ≠ 21/100 := by
  refine ⟨?_, ?_, by norm_num⟩ <;>
    norm_num [recomputeFrom, passRecords, applyUpserts, upsertRecord,
      queryEquity, dayLen, dayOf, resampleDailyLast, resampleGo, dailyReturns,
      dailyReturnsGo, maxDrawdown, mddGo, rollingVolatility, rollingSharpe,
      rollingBetaAlpha, winVals, mean, sampleVar, sampleCov, benchmarkReturns,
      storedGuard, eqC1, storeEmpty, List.filter, List.enum, List.enumFrom,
      List.filterMap, List.foldl, List.range, List.range_succ, List.zip,
      List.zipWith, List.replicate]

theorem storedGuard_ne_nan (v : Option ℚ) : storedGuard v ≠ DbVal.nan := by
  cases v <;> simp [storedGuard]

/-- C5 (counterexample): an equity history whose inception value is 0
(two days, both equity 0) makes the unguarded cumulative-return
computation divide by zero; the pass stores the NaN/Inf sentinel, not
SQL NULL. -/
theorem c5_cumulative_return_nan_stored :
    ((recomputeFrom id 0 [(0, 0), (86400, 0)] [] storeEmpty) 0).map
        (fun r => r.cumulative_return) = some DbVal.nan
    ∧ DbVal.nan ≠ DbVal.null := by
  constructor
  · norm_num [recomputeFrom, passRecords, applyUpserts, upsertRecord,
      queryEquity, dayLen, dayOf, resampleDailyLast, resampleGo, dailyReturns,
      dailyReturnsGo, maxDrawdown, mddGo, rollingVolatility, rollingSharpe,
      rollingBetaAlpha, winVals, mean, sampleVar, sampleCov, benchmarkReturns,
      storedGuard, storeEmpty, List.filter, List.enum, List.enumFrom,
      List.filterMap, List.foldl, List.range, List.range_succ, List.zip,
      List.zipWith, List.replicate]
  · exact fun h => DbVal.noConfusion h

/-- C5 (amended): every guarded field — daily return, 20-day
volatility, 60-day Sharpe, 60-day beta, 60-day alpha — of every record
a pass produces goes through the None/NaN guard, so a NaN or missing
value is stored as NULL, never as a NaN sentinel; the guard is absent
only from cumulative return (and max drawdown). -/
theorem c5_guarded_fields_never_nan (sqrt : ℚ → ℚ) (startDate : Nat)
    (equity spyBars : List (Nat × ℚ)) (r : AnalyticsRecord)
    (hr : r ∈ passRecords sqrt startDate equity spyBars) :
    r.daily_return ≠ DbVal.nan
    ∧ r.volatility_20d ≠ DbVal.nan
    ∧ r.sharpe_60d ≠ DbVal.nan
    ∧ r.beta_spy_60d ≠ DbVal.nan
    ∧ r.alpha_spy_60d ≠ DbVal.nan := by
  simp only [passRecords] at hr
  split at hr
  · exact absurd hr (List.not_mem_nil r)
  · split at hr
    · exact absurd hr (List.not_mem_nil r)
    · rcases List.mem_filterMap.mp hr with ⟨p, _, hf⟩
      by_cases hlt : p.2.1 < startDate
      · rw [if_pos hlt] at hf
        exact absurd hf (by simp)
      · rw [if_neg hlt] at hf
        have hrec := Option.some.inj hf
        rw [← hrec]
        exact ⟨storedGuard_ne_nan _, storedGuard_ne_nan _,
          storedGuard_ne_nan _, storedGuard_ne_nan _, storedGuard_ne_nan _⟩


/-- Witness for C4: with three equity snapshots and startDate day 1,
the pass stages 2 upserts and 1 commit; failing after the first staged
upsert and rolling back leaves the empty store empty. -/
theorem c4_atomic_batch_witness :
    1 < (passOps id 1 eqC1 []).length
    ∧ persistedAfterFailure storeEmpty (passOps id 1 eqC1 []) 1
        = storeEmpty := by
  have hlen : 1 < (passOps id 1 eqC1 []).length := by
    norm_num [passOps, passCommits, passRecords, queryEquity, dayLen, dayOf,
      resampleDailyLast, resampleGo, dailyReturns, dailyReturnsGo, maxDrawdown,
      mddGo, rollingVolatility, rollingSharpe, rollingBetaAlpha, winVals, mean,
      sampleVar, sampleCov, benchmarkReturns, storedGuard, eqC1, List.filter,
      List.enum, List.enumFrom, List.filterMap, List.foldl, List.range,
      List.range_succ, List.zip, List.zipWith, List.replicate]
  exact ⟨hlen, (c4_atomic_batch id 1 eqC1 [] storeEmpty 1).1 hlen⟩


/-- Witness for C5 (amended) at a concrete pass and record. -/
theorem c5_guarded_fields_never_nan_witness :
    recDay1 ∈ passRecords id 1 eqC1 []
    ∧ (recDay1.daily_return ≠ DbVal.nan
      ∧ recDay1.volatility_20d ≠ DbVal.nan
      ∧ recDay1.sharpe_60d ≠ DbVal.nan
      ∧ recDay1.beta_spy_60d ≠ DbVal.nan
      ∧ recDay1.alpha_spy_60d ≠ DbVal.nan) := by
  have hmem : recDay1 ∈ passRecords id 1 eqC1 [] := by
    norm_num [passRecords, queryEquity, dayLen, dayOf, resampleDailyLast,
      resampleGo, dailyReturns, dailyReturnsGo, maxDrawdown, mddGo,
      rollingVolatility, rollingSharpe, rollingBetaAlpha, winVals, mean,
      sampleVar, sampleCov, benchmarkReturns, storedGuard, eqC1, recDay1,
      List.filter, List.enum, List.enumFrom, List.filterMap, List.foldl,
      List.range_succ, List.range_zero, List.getElem?_cons_zero,
      List.getElem?_cons_succ, Option.map_some', Option.bind, List.zip,
      List.zipWith, List.replicate]
  exact ⟨hmem, c5_guarded_fields_never_nan id 1 eqC1 [] recDay1 hmem⟩

end Dashboard
